import Mathlib

/-!
Verification development for the LLMCodeStability pipeline: the isolated
execution-and-verification engine (`src/scripts/unit_test.py`) and the
resumable parallel generation harness
(`src/scripts/codegenerate_parallel-Codecontest-2.py`).
-/

/-- Python `str.isspace` characters relevant to `str.strip()`:
space, tab, newline, carriage return, vertical tab, form feed. -/
def isPyWs (c : Char) : Bool :=
  c = ' ' || c = '\t' || c = '\n' || c = '\r' || c = Char.ofNat 11 || c = Char.ofNat 12

/-- Python `str.strip()` on the character list: drop whitespace from both ends. -/
def pyStripL (s : List Char) : List Char :=
  ((s.dropWhile isPyWs).reverse.dropWhile isPyWs).reverse

/-- Python `str.strip()`. -/
def pyStrip (s : String) : String :=
  String.mk (pyStripL s.data)

/-- Python `str.split("\n")` on a character list: split at every newline,
never collapsing adjacent separators (`"".split("\n") == [""]`). -/
def splitNl : List Char → List (List Char)
  | [] => [[]]
  | c :: rest =>
    if c = '\n' then [] :: splitNl rest
    else
      match splitNl rest with
      | [] => [[c]]
      | h :: t => (c :: h) :: t

/-- Python `str.split("\n")` at the string level. -/
def splitLinesPy (s : String) : List String :=
  (splitNl s.data).map String.mk

example : pyStrip (" \n a b \t ") = ("a b") := by decide
example : splitLinesPy ("a\n\nb") = ["a", "", "b"] := by decide
example : splitLinesPy ("") = [""] := by decide
example : pyStrip ("") = ("") := by decide

/-- JSON string escaping for one character, as `json.dumps` performs it on the
characters occurring in this pipeline (backslash, double quote, newline,
carriage return, tab); every other character passes through unchanged. -/
def escChar (c : Char) : List Char :=
  if c = '\\' then ['\\', '\\']
  else if c = '"' then ['\\', '"']
  else if c = '\n' then ['\\', 'n']
  else if c = '\r' then ['\\', 'r']
  else if c = '\t' then ['\\', 't']
  else [c]

/-- JSON escaping of a whole character list. -/
def escape (s : List Char) : List Char := s.flatMap escChar

/-- Python `json.dumps` applied to a string: the escaped text between double
quotes. -/
def jsonDumpsStr (s : String) : String :=
  String.mk ('"' :: escape s.data ++ ['"'])

/-- The single-quote character as a string, written via its code point. -/
def squote : String := String.mk [Char.ofNat 39]

/-- One public test case: an input text and the expected output text
(`unit_test.py`, fields `input` / `output` of an element of `public_tests`). -/
structure TestCase where
  input : String
  output : String
deriving DecidableEq

/-- The fields of one verification task that `run_unittest` reads
(`unit_test.py`, lines 54-63; the fields merely copied into the result
record are elided). -/
structure ProblemV where
  problem_id : Option String
  solution_id : String
  generated_solution : String
  public_tests : List TestCase
deriving DecidableEq

/-- The synthesized test method `test_case_i` (`unit_test.py`, lines 86-93):
the exact text of the Python f-string, with `json.dumps` applied to the
test input and expected output. -/
def test_method (i : Nat) (case : TestCase) : String :=
  "\n            def test_case_" ++ toString i ++ "(self):\n                input_str = "
    ++ jsonDumpsStr case.input
    ++ "\n                expected = "
    ++ jsonDumpsStr case.output
    ++ "\n                input_lines = input_str.strip().split(\"\\n\")\n                result = solve(input_lines)\n                self.assertEqual(str(result).strip(), expected.strip(), f\"Output mismatch: {result} != {expected}\")\n        "

/-- Python `enumerate(public_tests)` feeding `test_method`
(`unit_test.py`, lines 81-94). -/
def testMethodsAux (i : Nat) : List TestCase → List String
  | [] => []
  | c :: rest => test_method i c :: testMethodsAux (i + 1) rest

/-- The list of synthesized test-method texts, one per public test. -/
def test_methods (tests : List TestCase) : List String := testMethodsAux 0 tests

/-- The synthesized verification code (`unit_test.py`, lines 96-100). -/
def test_code (tests : List TestCase) : String :=
  "\nimport unittest\n\nclass TestDataclass(unittest.TestCase):\n"
    ++ String.join (test_methods tests) ++ "\n"

/-- The combined source handed to the isolated context
(`unit_test.py`, line 102). -/
def full_code (generated_solution : String) (tests : List TestCase) : String :=
  generated_solution ++ "\n\n" ++ test_code tests

/-- Meaning of the synthesized test method body (`unit_test.py`, lines 88-92),
with the solution entry point `solve` modelled as a function from the input
lines to the string the test compares (`str(result)`): the input is stripped
of surrounding whitespace, split on newlines, passed to `solve`, and the
stripped result is compared with the stripped expected output. -/
def synthAssertHolds (solve : List String → String) (case : TestCase) : Bool :=
  pyStrip (solve (splitLinesPy (pyStrip case.input))) == pyStrip case.output

/-- Modelled from the claim text of the specification (section 4.1): the
assertion as the spec words it, where the entry point is invoked on the
raw input split into lines (no stripping of the input is mentioned), and
the comparison strips both sides. -/
def claimAssertHolds (solve : List String → String) (case : TestCase) : Bool :=
  pyStrip (solve (splitLinesPy case.input)) == pyStrip case.output

/-- Observable behavior of the isolated worker `_worker`
(`unit_test.py`, lines 23-51): whether `exec(code, globs)` (or loading the
test class) raised, what entry point the executed code defined, and the
text the redirected stdout/stderr buffers held when the run finished. -/
structure WorkerEnv where
  execFault : Option String
  solve : List String → String
  capturedStdout : String
  capturedStderr : String

/-- The one structured message `_worker` sends over the pipe
(`unit_test.py`, lines 38-49). -/
structure WorkerMsg where
  category : String
  stdout : Option String
  error : Option String
deriving DecidableEq

/-- The message `_worker` sends, as a function of the worker behavior and the
public tests (`unit_test.py`, lines 29-49): an uncaught fault of the
executed code yields `execution_error` with the traceback; otherwise the
suite result is `success` when every synthesized assertion passes
(vacuously so for an empty suite) and `test_failure` otherwise, with
Python `sys.stderr.getvalue() or "Test failed"` as the diagnostic. -/
def workerMsg (w : WorkerEnv) (tests : List TestCase) : WorkerMsg :=
  match w.execFault with
  | some diag => ⟨("execution_error"), none, some diag⟩
  | none =>
    if tests.all (synthAssertHolds w.solve) then
      ⟨("success"), some w.capturedStdout, none⟩
    else
      ⟨("test_failure"), some w.capturedStdout,
        some (if w.capturedStderr = "" then ("Test failed") else w.capturedStderr)⟩

/-- Environment of one isolated run (`unit_test.py`, lines 104-135):
`aliveAfterJoin` is `p.is_alive()` after `p.join(timeout)` returned;
`sent` says whether the child reached `conn.send` before exiting, so that
`parent_conn.poll()` sees a message; `elapsedSeconds` is the wall-clock
time from spawn to the supervisor's check. -/
structure IsoEnv where
  worker : WorkerEnv
  aliveAfterJoin : Bool
  sent : Bool
  elapsedSeconds : Nat

/-- The process-management steps `run_unittest` performs, in order
(`unit_test.py`, lines 104-124). -/
inductive ProcAction where
  | start (code : String)
  | joinTimeout
  | terminate
  | joinFinal
deriving DecidableEq

/-- The result record `run_unittest` returns (`unit_test.py`, lines 65-78 and
109-135; fields merely copied from the input problem are elided). -/
structure VerifyResult where
  problem_id : Option String
  solution_id : String
  category : String
  error : Option String
  stdout : Option String
  num_tests : Option Nat
deriving DecidableEq

/-- The timeout diagnostic (`unit_test.py`, line 127): the message interpolates
the configured `timeout` parameter. -/
def timeoutMsg (timeout : Nat) : String :=
  "Execution timed out after " ++ toString timeout ++ " seconds"

/-- The blank-code diagnostic (`unit_test.py`, line 76). -/
def emptyCodeMsg : String :=
  "No code provided in " ++ squote ++ "generated_solution" ++ squote ++ "."

/-- Shallow embedding of `run_unittest` (`unit_test.py`, lines 53-137),
returning both the result record and the ordered list of process-management
actions performed.  Blank code short-circuits before any process is
spawned; otherwise the process is spawned on the combined source and joined
with the timeout; if it is still alive it is terminated and joined again and
the outcome is `timeout`; else if the channel holds a message that message
classifies the outcome; else the outcome is `no_response`. -/
def run_unittest (p : ProblemV) (timeout : Nat) (env : IsoEnv) :
    VerifyResult × List ProcAction :=
  if pyStrip p.generated_solution = "" then
    (⟨p.problem_id, p.solution_id, ("empty_code_extracted"),
      some emptyCodeMsg, none, none⟩, [])
  else
    let code := full_code p.generated_solution p.public_tests
    if env.aliveAfterJoin then
      (⟨p.problem_id, p.solution_id, ("timeout"), some (timeoutMsg timeout), none,
        some p.public_tests.length⟩,
       [ProcAction.start code, ProcAction.joinTimeout, ProcAction.terminate,
        ProcAction.joinFinal])
    else if env.sent then
      let m := workerMsg env.worker p.public_tests
      (⟨p.problem_id, p.solution_id, m.category, m.error, m.stdout,
        some p.public_tests.length⟩,
       [ProcAction.start code, ProcAction.joinTimeout])
    else
      (⟨p.problem_id, p.solution_id, ("no_response"),
        some ("No response received from subprocess"), none,
        some p.public_tests.length⟩,
       [ProcAction.start code, ProcAction.joinTimeout])

example :
    (run_unittest ⟨some ("p1"), ("s1"), ("  \n "), []⟩ 10
      ⟨⟨none, fun _ => (""), (""), ("")⟩, false, true, 0⟩).1.category
      = ("empty_code_extracted") := by decide

/-- The fixed outcome taxonomy of the verification engine, by the category
strings the source emits. -/
def outcomeTaxonomy : List String :=
  [("empty_code_extracted"), ("timeout"), ("no_response"), ("execution_error"),
   ("test_failure"), ("success")]

/-- Length of the synthesized method list equals the number of tests. -/
theorem testMethodsAux_length (k : Nat) :
    ∀ tests : List TestCase, (testMethodsAux k tests).length = tests.length := by
  intro tests
  induction tests generalizing k with
  | nil => rfl
  | cons c rest ih => simp [testMethodsAux, ih]

/-- Element formula for the synthesized method list. -/
theorem testMethodsAux_get? (k : Nat) :
    ∀ (tests : List TestCase) (i : Nat) (case : TestCase),
      tests.get? i = some case →
      (testMethodsAux k tests).get? i = some (test_method (k + i) case) := by
  intro tests
  induction tests generalizing k with
  | nil => intro i c h; simp at h
  | cons c rest ih =>
    intro i d h
    cases i with
    | zero =>
      rw [List.get?_cons_zero] at h
      cases h
      simp [testMethodsAux]
    | succ j =>
      rw [List.get?_cons_succ] at h
      have := ih (k + 1) j d h
      simpa [testMethodsAux, Nat.add_assoc, Nat.add_comm 1 j] using this

/-- C2: a verification task whose generated solution text is empty or
whitespace-only is classified `empty_code_extracted` (the EmptyCode tag of
the spec taxonomy) and no isolated execution context is spawned: the list
of process-management actions is empty. -/
theorem blank_code_short_circuits (p : ProblemV) (timeout : Nat) (env : IsoEnv)
    (hb : pyStrip p.generated_solution = ("")) :
    (run_unittest p timeout env).1.category = ("empty_code_extracted") ∧
    (run_unittest p timeout env).2 = [] := by
  simp [run_unittest, hb]

/-- Witness for `blank_code_short_circuits` at a whitespace-only solution. -/
theorem blank_code_short_circuits_witness :
    (run_unittest ⟨some ("p"), ("s"), ("  \n\t "), []⟩ 10
        ⟨⟨none, fun _ => (""), (""), ("")⟩, false, false, 0⟩).1.category
      = ("empty_code_extracted") ∧
    (run_unittest ⟨some ("p"), ("s"), ("  \n\t "), []⟩ 10
        ⟨⟨none, fun _ => (""), (""), ("")⟩, false, false, 0⟩).2 = [] :=
  blank_code_short_circuits _ 10 _ (by decide)

/-- C1: every completed verification task carries exactly one tag of the fixed
taxonomy, and for non-blank code the classifier maps the run deterministically:
`timeout` exactly when the context outlives the deadline, `no_response`
exactly when it exits with the channel empty, `execution_error` (carrying the
full diagnostic) exactly when an uncaught fault occurred, `test_failure`
(with a diagnostic) exactly when some synthesized assertion fails, and
`success` (with the captured stdout) exactly when all assertions pass. -/
theorem outcome_single_deterministic_tag (p : ProblemV) (timeout : Nat)
    (env : IsoEnv) :
    ((outcomeTaxonomy.filter
        (fun c => (run_unittest p timeout env).1.category == c)).length = 1) ∧
    (pyStrip p.generated_solution ≠ ("") →
      (((run_unittest p timeout env).1.category = ("timeout")) ↔
        env.aliveAfterJoin = true) ∧
      (((run_unittest p timeout env).1.category = ("no_response")) ↔
        (env.aliveAfterJoin = false ∧ env.sent = false)) ∧
      (((run_unittest p timeout env).1.category = ("execution_error")) ↔
        (env.aliveAfterJoin = false ∧ env.sent = true ∧
          env.worker.execFault ≠ none)) ∧
      (((run_unittest p timeout env).1.category = ("test_failure")) ↔
        (env.aliveAfterJoin = false ∧ env.sent = true ∧
          env.worker.execFault = none ∧
          p.public_tests.all (synthAssertHolds env.worker.solve) = false)) ∧
      (((run_unittest p timeout env).1.category = ("success")) ↔
        (env.aliveAfterJoin = false ∧ env.sent = true ∧
          env.worker.execFault = none ∧
          p.public_tests.all (synthAssertHolds env.worker.solve) = true)) ∧
      (∀ d, env.aliveAfterJoin = false → env.sent = true →
        env.worker.execFault = some d →
        (run_unittest p timeout env).1.error = some d) ∧
      ((run_unittest p timeout env).1.category = ("test_failure") →
        (run_unittest p timeout env).1.error ≠ none) ∧
      ((run_unittest p timeout env).1.category = ("success") →
        (run_unittest p timeout env).1.stdout = some env.worker.capturedStdout)) := by
  obtain ⟨⟨fault, solveF, so, se⟩, alive, sent, el⟩ := env
  by_cases hb : pyStrip p.generated_solution = ("")
  · refine ⟨?_, fun h => absurd hb h⟩
    simp [run_unittest, hb, outcomeTaxonomy]
  · cases alive with
    | true =>
      refine ⟨?_, fun _ => ?_⟩
      · simp [run_unittest, hb, outcomeTaxonomy]
      · refine ⟨by simp [run_unittest, hb], ?_, ?_, ?_, ?_, ?_, ?_, ?_⟩ <;>
          simp [run_unittest, hb]
    | false =>
      cases sent with
      | false =>
        refine ⟨?_, fun _ => ?_⟩
        · simp [run_unittest, hb, outcomeTaxonomy]
        · refine ⟨?_, ?_, ?_, ?_, ?_, ?_, ?_, ?_⟩ <;>
            simp [run_unittest, hb]
      | true =>
        cases fault with
        | some d =>
          refine ⟨?_, fun _ => ?_⟩
          · simp [run_unittest, hb, workerMsg, outcomeTaxonomy]
          · refine ⟨?_, ?_, ?_, ?_, ?_, ?_, ?_, ?_⟩ <;>
              simp [run_unittest, hb, workerMsg]
        | none =>
          by_cases hall : p.public_tests.all (synthAssertHolds solveF) = true
          · refine ⟨?_, fun _ => ?_⟩
            · simp [run_unittest, hb, workerMsg, hall, outcomeTaxonomy]
            · refine ⟨?_, ?_, ?_, ?_, ?_, ?_, ?_, ?_⟩ <;>
                simp [run_unittest, hb, workerMsg, hall]
          · rw [Bool.not_eq_true] at hall
            refine ⟨?_, fun _ => ?_⟩
            · simp [run_unittest, hb, workerMsg, hall, outcomeTaxonomy]
            · refine ⟨?_, ?_, ?_, ?_, ?_, ?_, ?_, ?_⟩ <;>
                simp [run_unittest, hb, workerMsg, hall]

/-- Concrete verification task used by witnesses: one line of code, no tests. -/
def witProblem : ProblemV := ⟨some ("p"), ("s"), ("x = 1"), []⟩

/-- Concrete isolation environment used by witnesses: the child finished,
sent its message, and raised no fault. -/
def witEnv : IsoEnv := ⟨⟨none, fun _ => (""), ("ok"), ("")⟩, false, true, 0⟩

/-- Witness for `outcome_single_deterministic_tag`: a concrete passing run. -/
theorem outcome_single_deterministic_tag_witness :
    ((outcomeTaxonomy.filter
        (fun c => (run_unittest witProblem 10 witEnv).1.category == c)).length
      = 1) ∧
    (((run_unittest witProblem 10 witEnv).1.category = ("success")) ↔
      (witEnv.aliveAfterJoin = false ∧ witEnv.sent = true ∧
        witEnv.worker.execFault = none ∧
        witProblem.public_tests.all (synthAssertHolds witEnv.worker.solve)
          = true)) :=
  ⟨(outcome_single_deterministic_tag witProblem 10 witEnv).1,
   ((outcome_single_deterministic_tag witProblem 10 witEnv).2
      (by decide)).2.2.2.2.1⟩

/-- C5: when the isolated context is still alive after the timed join, the
supervisor terminates it and then joins it again, and these are the last
process-management actions before `run_unittest` returns: the full trace is
spawn, timed join, terminate, final join. -/
theorem timeout_terminate_then_join (p : ProblemV) (timeout : Nat) (env : IsoEnv)
    (hb : pyStrip p.generated_solution ≠ (""))
    (ha : env.aliveAfterJoin = true) :
    (run_unittest p timeout env).2 =
      [ProcAction.start (full_code p.generated_solution p.public_tests),
       ProcAction.joinTimeout, ProcAction.terminate, ProcAction.joinFinal] := by
  simp [run_unittest, hb, ha]

/-- Concrete hanging run used by witnesses: the child outlives the deadline. -/
def witHangEnv : IsoEnv := ⟨⟨none, fun _ => (""), (""), ("")⟩, true, false, 15⟩

/-- Concrete looping task used by witnesses. -/
def witLoopProblem : ProblemV := ⟨some ("p"), ("s"), ("while True: pass"), []⟩

/-- Witness for `timeout_terminate_then_join` at a concrete hanging run. -/
theorem timeout_terminate_then_join_witness :
    (run_unittest witLoopProblem 10 witHangEnv).2 =
      [ProcAction.start
         (full_code witLoopProblem.generated_solution witLoopProblem.public_tests),
       ProcAction.joinTimeout, ProcAction.terminate, ProcAction.joinFinal] :=
  timeout_terminate_then_join witLoopProblem 10 witHangEnv (by decide) (by decide)

/-- C4 counterexample: the timeout payload interpolates the configured
timeout parameter, not a measured elapsed wall-clock time.  In a run whose
context was observed alive after 15 elapsed seconds with a configured
timeout of 10, the diagnostic reads "after 10 seconds" and differs from the
message that would carry the elapsed time. -/
theorem timeout_payload_is_not_elapsed :
    (run_unittest witLoopProblem 10 witHangEnv).1.error = some (timeoutMsg 10) ∧
    witHangEnv.elapsedSeconds = 15 ∧
    (run_unittest witLoopProblem 10 witHangEnv).1.error
      ≠ some (timeoutMsg witHangEnv.elapsedSeconds) := by
  refine ⟨by decide, rfl, by decide⟩

/-- C4 (amended): when the context outlives the deadline the outcome tag is
`timeout` and the payload reports the configured timeout, which — by the
semantics of `p.join(timeout)`, which only returns with the child still
alive after waiting the full timeout — is a lower bound on the elapsed
wall-clock time. -/
theorem timeout_reports_configured_timeout (p : ProblemV) (timeout : Nat)
    (env : IsoEnv)
    (hb : pyStrip p.generated_solution ≠ (""))
    (ha : env.aliveAfterJoin = true)
    (hj : timeout ≤ env.elapsedSeconds) :
    (run_unittest p timeout env).1.category = ("timeout") ∧
    (run_unittest p timeout env).1.error = some (timeoutMsg timeout) ∧
    timeout ≤ env.elapsedSeconds := by
  refine ⟨?_, ?_, hj⟩ <;> simp [run_unittest, hb, ha]

/-- Witness for `timeout_reports_configured_timeout`. -/
theorem timeout_reports_configured_timeout_witness :
    (run_unittest witLoopProblem 10 witHangEnv).1.category = ("timeout") ∧
    (run_unittest witLoopProblem 10 witHangEnv).1.error = some (timeoutMsg 10) ∧
    10 ≤ witHangEnv.elapsedSeconds :=
  timeout_reports_configured_timeout witLoopProblem 10 witHangEnv
    (by decide) (by decide) (by decide)

/-- C10: a verification task with non-blank code, a fault-free execution and
an empty `public_tests` sequence synthesizes a test class with no test
methods, the empty suite counts as successful, and the outcome is
`success` with the captured stdout. -/
theorem empty_suite_is_success (p : ProblemV) (timeout : Nat) (env : IsoEnv)
    (hb : pyStrip p.generated_solution ≠ (""))
    (ht : p.public_tests = [])
    (ha : env.aliveAfterJoin = false)
    (hs : env.sent = true)
    (hf : env.worker.execFault = none) :
    test_methods p.public_tests = [] ∧
    p.public_tests.all (synthAssertHolds env.worker.solve) = true ∧
    (run_unittest p timeout env).1.category = ("success") ∧
    (run_unittest p timeout env).1.stdout = some env.worker.capturedStdout := by
  refine ⟨?_, ?_, ?_, ?_⟩ <;>
    simp [run_unittest, hb, ha, hs, workerMsg, hf, ht, test_methods, testMethodsAux]

/-- Witness for `empty_suite_is_success`. -/
theorem empty_suite_is_success_witness :
    test_methods witProblem.public_tests = [] ∧
    witProblem.public_tests.all (synthAssertHolds witEnv.worker.solve) = true ∧
    (run_unittest witProblem 10 witEnv).1.category = ("success") ∧
    (run_unittest witProblem 10 witEnv).1.stdout
      = some witEnv.worker.capturedStdout :=
  empty_suite_is_success witProblem 10 witEnv (by decide) rfl rfl rfl rfl

/-- C3 counterexample: the synthesized assertion strips the test input before
splitting it into lines, while the claim invokes the entry point on the raw
input split into lines.  For the solution that returns the number of its
input lines and the test with input newline-then-1 and expected output 1,
the synthesized assertion passes but the claimed assertion fails. -/
theorem synthesized_assert_strips_input_first :
    synthAssertHolds (fun lines => toString lines.length) ⟨("\n1"), ("1")⟩ = true ∧
    claimAssertHolds (fun lines => toString lines.length) ⟨("\n1"), ("1")⟩ = false := by
  refine ⟨by decide, by decide⟩

/-- C3 (amended): for a non-blank task the spawned combined source is the
generated solution concatenated with the synthesized verification code; the
verification code declares exactly one test method per public test, the
i-th built from the i-th test; and the i-th assertion holds exactly when
calling `solve` on the i-th input, stripped of surrounding whitespace and
then split into lines, yields — after stripping both sides of the
comparison — that test's expected output (also stripped). -/
theorem combined_source_structure (p : ProblemV) (timeout : Nat) (env : IsoEnv)
    (hb : pyStrip p.generated_solution ≠ ("")) :
    ((run_unittest p timeout env).2).head? =
      some (ProcAction.start (full_code p.generated_solution p.public_tests)) ∧
    full_code p.generated_solution p.public_tests
      = p.generated_solution ++ ("\n\n") ++ test_code p.public_tests ∧
    (test_methods p.public_tests).length = p.public_tests.length ∧
    (∀ (i : Nat) (case : TestCase), p.public_tests.get? i = some case →
      (test_methods p.public_tests).get? i = some (test_method i case)) ∧
    (∀ (solve : List String → String) (case : TestCase),
      synthAssertHolds solve case = true ↔
        pyStrip (solve (splitLinesPy (pyStrip case.input))) = pyStrip case.output) := by
  refine ⟨?_, rfl, testMethodsAux_length 0 p.public_tests, ?_, ?_⟩
  · cases halive : env.aliveAfterJoin with
    | true => simp [run_unittest, hb, halive]
    | false =>
      cases hsent : env.sent with
      | true => simp [run_unittest, hb, halive, hsent]
      | false => simp [run_unittest, hb, halive, hsent]
  · intro i c h
    simpa using testMethodsAux_get? 0 p.public_tests i c h
  · intro solveF c
    simp [synthAssertHolds]

/-- Witness for `combined_source_structure` at a concrete one-test task. -/
theorem combined_source_structure_witness :
    ((run_unittest ⟨some ("p"), ("s"), ("def solve(lines): return lines[0]"),
        [⟨("2"), ("2")⟩]⟩ 10 witEnv).2).head? =
      some (ProcAction.start (full_code ("def solve(lines): return lines[0]")
        [⟨("2"), ("2")⟩])) ∧
    full_code ("def solve(lines): return lines[0]") [⟨("2"), ("2")⟩]
      = ("def solve(lines): return lines[0]") ++ ("\n\n")
        ++ test_code [⟨("2"), ("2")⟩] ∧
    (test_methods [(⟨("2"), ("2")⟩ : TestCase)]).length
      = [(⟨("2"), ("2")⟩ : TestCase)].length ∧
    (∀ (i : Nat) (case : TestCase),
      [(⟨("2"), ("2")⟩ : TestCase)].get? i = some case →
      (test_methods [(⟨("2"), ("2")⟩ : TestCase)]).get? i
        = some (test_method i case)) ∧
    (∀ (solve : List String → String) (case : TestCase),
      synthAssertHolds solve case = true ↔
        pyStrip (solve (splitLinesPy (pyStrip case.input))) = pyStrip case.output) :=
  combined_source_structure
    ⟨some ("p"), ("s"), ("def solve(lines): return lines[0]"), [⟨("2"), ("2")⟩]⟩
    10 witEnv (by decide)

/-- One persisted generation record, reduced to its identity fields and an
opaque payload standing for the remaining serialized fields
(`codegenerate_parallel-Codecontest-2.py`, lines 218-246). -/
structure GenRecord where
  problem_id : String
  completion_index : Nat
  payload : String
deriving DecidableEq

/-- The identity key recovered from a record
(`codegenerate_parallel-Codecontest-2.py`, line 174). -/
def recordKey (r : GenRecord) : String × Nat := (r.problem_id, r.completion_index)

/-- All identity keys of one batch in submission order: every problem id
paired with every completion index
(`codegenerate_parallel-Codecontest-2.py`, lines 252-255 before the
filter). -/
def genKeys (pids : List String) (n : Nat) : List (String × Nat) :=
  pids.flatMap (fun p => (List.range n).map (fun i => (p, i)))

/-- The dispatched work list: batch keys whose identity is not in the resume
ledger (`codegenerate_parallel-Codecontest-2.py`, lines 252-257). -/
def jobsList (pids : List String) (n : Nat) (ledger : List (String × Nat)) :
    List (String × Nat) :=
  (genKeys pids n).filter (fun k => !ledger.contains k)

/-- Ledger handling inside `process_one_completion`
(`codegenerate_parallel-Codecontest-2.py`, lines 188-189, 248-250): a task
whose key is already in the ledger returns without writing anything;
otherwise exactly one record with that key and the payload produced for it
is appended. -/
def processOneGen (ledger : List (String × Nat))
    (payloadFn : String × Nat → String) (k : String × Nat) : Option GenRecord :=
  if ledger.contains k then none else some ⟨k.1, k.2, payloadFn k⟩

/-- One batch run resumed on top of `prior` records: the ledger is the set of
keys recovered from the prior output file, the work list is filtered
against it, and the new records are appended after the prior ones
(`codegenerate_parallel-Codecontest-2.py`, lines 167-178 and 248-261).
`payloadFn` abstracts the per-task record content (model call plus
extraction), identical across both runs being compared. -/
def runBatch (payloadFn : String × Nat → String) (prior : List GenRecord)
    (pids : List String) (n : Nat) : List GenRecord :=
  prior ++ (jobsList pids n (prior.map recordKey)).filterMap
    (processOneGen (prior.map recordKey) payloadFn)

/-- The records an uninterrupted run writes for its first `m` tasks, i.e. the
state of the output file when the run is killed after `m` completions. -/
def prefixRun (payloadFn : String × Nat → String) (pids : List String)
    (n m : Nat) : List GenRecord :=
  ((genKeys pids n).take m).map (fun k => ⟨k.1, k.2, payloadFn k⟩)

/-- Membership in the batch key list. -/
theorem mem_genKeys (pids : List String) (n : Nat) (k : String × Nat) :
    k ∈ genKeys pids n ↔ k.1 ∈ pids ∧ k.2 < n := by
  simp only [genKeys, List.mem_flatMap, List.mem_map, List.mem_range]
  constructor
  · rintro ⟨p, hp, i, hi, rfl⟩
    exact ⟨hp, hi⟩
  · rintro ⟨h1, h2⟩
    exact ⟨k.1, h1, k.2, h2, rfl⟩

/-- Distinct problem ids give pairwise distinct batch keys. -/
theorem genKeys_nodup (pids : List String) (n : Nat) (h : pids.Nodup) :
    (genKeys pids n).Nodup := by
  induction pids with
  | nil => simp [genKeys]
  | cons p rest ih =>
    rw [List.nodup_cons] at h
    have hmap : ((List.range n).map (fun i => (p, i))).Nodup :=
      (List.nodup_range n).map (fun a b hab => by simpa using hab)
    have hrest : (genKeys rest n).Nodup := ih h.2
    have hdisj : ((List.range n).map (fun i => (p, i))).Disjoint (genKeys rest n) := by
      intro a ha hb
      simp only [List.mem_map, List.mem_range] at ha
      obtain ⟨i, _, rfl⟩ := ha
      have : p ∈ rest := ((mem_genKeys rest n (p, i)).1 hb).1
      exact h.1 this
    simpa [genKeys] using List.nodup_append.2 ⟨hmap, hrest, hdisj⟩

/-- Filter over a concatenation whose first part falsifies and whose second
part satisfies the predicate keeps exactly the second part. -/
theorem filter_split {α : Type} (p : α → Bool) (t d : List α)
    (h1 : ∀ x ∈ t, p x = false) (h2 : ∀ x ∈ d, p x = true) :
    (t ++ d).filter p = d := by
  rw [List.filter_append]
  rw [List.filter_eq_nil_iff.2 (fun a ha => by simp [h1 a ha]),
    List.filter_eq_self.2 h2, List.nil_append]

/-- On a duplicate-free key list, filtering out the members of its `m`-prefix
leaves exactly its `m`-suffix. -/
theorem filter_not_take_contains (l : List (String × Nat))
    (m : Nat) (h : l.Nodup) :
    l.filter (fun k => !((l.take m).contains k)) = l.drop m := by
  have key := filter_split (fun k => !((l.take m).contains k)) (l.take m)
    (l.drop m)
    (fun x hx => by simp [hx])
    (fun x hx => by
      have : x ∉ l.take m :=
        fun hmem => List.disjoint_take_drop h (Nat.le_refl m) hmem hx
      simp [this])
  rwa [List.take_append_drop] at key

/-- Tasks not in the ledger pass `process_one_completion` untouched. -/
theorem filterMap_processOneGen (ledger : List (String × Nat))
    (payloadFn : String × Nat → String) (l : List (String × Nat))
    (h : ∀ k ∈ l, ledger.contains k = false) :
    l.filterMap (processOneGen ledger payloadFn)
      = l.map (fun k => ⟨k.1, k.2, payloadFn k⟩) := by
  induction l with
  | nil => rfl
  | cons k rest ih =>
    have hk := h k (List.mem_cons_self k rest)
    rw [List.filterMap_cons, List.map_cons]
    simp only [processOneGen, hk]
    rw [ih (fun x hx => h x (List.mem_cons_of_mem k hx))]
    simp

/-- Every member of the dispatched work list is outside the ledger. -/
theorem jobsList_not_contains (pids : List String) (n : Nat)
    (ledger : List (String × Nat)) :
    ∀ k ∈ jobsList pids n ledger, ledger.contains k = false := by
  intro k hk
  have := (List.mem_filter.1 hk).2
  simpa using this

/-- Keys of the records a run prefix wrote are the corresponding key prefix. -/
theorem prefixRun_keys (payloadFn : String × Nat → String) (pids : List String)
    (n m : Nat) :
    (prefixRun payloadFn pids n m).map recordKey = (genKeys pids n).take m := by
  unfold prefixRun
  rw [List.map_map]
  have hcomp : (recordKey ∘ fun k : String × Nat =>
      (⟨k.1, k.2, payloadFn k⟩ : GenRecord)) = id := by
    funext k; rfl
  rw [hcomp, List.map_id]

example : jobsList [("a")] 2 [] = [(("a"), 0), (("a"), 1)] := by decide
example :
    runBatch (fun k => k.1) [] [("a")] 1 = [⟨("a"), 0, ("a")⟩] := by decide

/-- An uninterrupted run writes one record per batch key, in order. -/
theorem runBatch_fresh (payloadFn : String × Nat → String) (pids : List String)
    (n : Nat) :
    runBatch payloadFn [] pids n
      = (genKeys pids n).map (fun k => ⟨k.1, k.2, payloadFn k⟩) := by
  unfold runBatch
  rw [List.nil_append]
  have hjobs : jobsList pids n (([] : List GenRecord).map recordKey)
      = genKeys pids n := by
    simp [jobsList]
  rw [hjobs]
  exact filterMap_processOneGen _ payloadFn _ (fun k _ => by simp)

/-- C6: re-running a batch after an interruption is strictly additive.  Any
key already in the resume ledger is dropped from the dispatched work list;
and when the prior output file holds the records of the first `m` tasks of
an uninterrupted run, the resumed run appends exactly the remaining tasks,
so its final record list equals that of one uninterrupted run and its key
set covers the whole batch — completed work is never re-executed and
pending work is never skipped. -/
theorem resume_is_strictly_additive (payloadFn : String × Nat → String)
    (pids : List String) (n m : Nat) (hnd : pids.Nodup) :
    (∀ (ledger : List (String × Nat)) (k : String × Nat),
      k ∈ ledger → k ∉ jobsList pids n ledger) ∧
    runBatch payloadFn (prefixRun payloadFn pids n m) pids n
      = runBatch payloadFn [] pids n ∧
    (runBatch payloadFn (prefixRun payloadFn pids n m) pids n).map recordKey
      = genKeys pids n := by
  have hkeys := genKeys_nodup pids n hnd
  have hdrop : ∀ (ledger : List (String × Nat)) (k : String × Nat),
      k ∈ ledger → k ∉ jobsList pids n ledger := by
    intro ledger k hk hmem
    have := jobsList_not_contains pids n ledger k hmem
    simp [hk] at this
  have hresumed : runBatch payloadFn (prefixRun payloadFn pids n m) pids n
      = runBatch payloadFn [] pids n := by
    unfold runBatch
    rw [List.nil_append, prefixRun_keys]
    have hjobs : jobsList pids n ((genKeys pids n).take m)
        = (genKeys pids n).drop m := by
      unfold jobsList
      exact filter_not_take_contains (genKeys pids n) m hkeys
    rw [hjobs]
    have hjobs0 : jobsList pids n (([] : List GenRecord).map recordKey)
        = genKeys pids n := by simp [jobsList]
    rw [hjobs0]
    have h1 : ((genKeys pids n).drop m).filterMap
        (processOneGen ((genKeys pids n).take m) payloadFn)
        = ((genKeys pids n).drop m).map (fun k => ⟨k.1, k.2, payloadFn k⟩) := by
      refine filterMap_processOneGen _ payloadFn _ (fun k hk => ?_)
      have : k ∉ (genKeys pids n).take m :=
        fun hmem => List.disjoint_take_drop hkeys (Nat.le_refl m) hmem hk
      simp [this]
    have h2 : (genKeys pids n).filterMap
        (processOneGen (([] : List GenRecord).map recordKey) payloadFn)
        = (genKeys pids n).map (fun k => ⟨k.1, k.2, payloadFn k⟩) :=
      filterMap_processOneGen _ payloadFn _ (fun k _ => by simp)
    rw [h1, h2]
    unfold prefixRun
    rw [← List.map_append, List.take_append_drop]
  refine ⟨hdrop, hresumed, ?_⟩
  rw [hresumed, runBatch_fresh, List.map_map]
  have hcomp : (recordKey ∘ fun k : String × Nat =>
      (⟨k.1, k.2, payloadFn k⟩ : GenRecord)) = id := by
    funext k; rfl
  rw [hcomp, List.map_id]

/-- Witness for `resume_is_strictly_additive`: two problems, two completions
each, interrupted after two completed tasks. -/
theorem resume_is_strictly_additive_witness :
    (∀ (ledger : List (String × Nat)) (k : String × Nat),
      k ∈ ledger → k ∉ jobsList [("a"), ("b")] 2 ledger) ∧
    runBatch (fun k => k.1) (prefixRun (fun k => k.1) [("a"), ("b")] 2 2)
      [("a"), ("b")] 2
      = runBatch (fun k => k.1) [] [("a"), ("b")] 2 ∧
    (runBatch (fun k => k.1) (prefixRun (fun k => k.1) [("a"), ("b")] 2 2)
      [("a"), ("b")] 2).map recordKey
      = genKeys [("a"), ("b")] 2 :=
  resume_is_strictly_additive (fun k => k.1) [("a"), ("b")] 2 2 (by decide)


/-- Outcome of one call to the model-serving backend
(`codegenerate_parallel-Codecontest-2.py`, lines 67-96): the client either
returns completion text or raises a transport/API error. -/
inductive ApiBehavior where
  | ok (text : String)
  | raises (msg : String)

/-- Shallow embedding of `create_completion`
(`codegenerate_parallel-Codecontest-2.py`, lines 67-96): on success the
completion text is returned stripped; an exception from the client is
caught inside the function, printed, and turned into the empty string —
it never propagates to the caller. -/
def create_completion : ApiBehavior → String
  | ApiBehavior.ok t => pyStrip t
  | ApiBehavior.raises _ => ("")

/-- Behavior environment of one generation task: the backend call outcome and
an optional exception raised elsewhere inside the try block of
`process_one_completion` (message construction, field access, and so on). -/
structure GenTaskEnv where
  api : ApiBehavior
  bodyFault : Option String

/-- The record fields of one generation task relevant to fault handling
(`codegenerate_parallel-Codecontest-2.py`, lines 218-246; fields merely
copied from the problem are elided). -/
structure GenFullRecord where
  problem_id : String
  completion_index : Nat
  error_category : Option String
  error_message : Option String
  generated_solution : String
  raw_llm_output : String
deriving DecidableEq

/-- Shallow embedding of the fault handling in `process_one_completion`
(`codegenerate_parallel-Codecontest-2.py`, lines 190-246).  `extract`
abstracts `extract_code_block`, which the spec places out of scope.  An
exception raised inside the try block is caught and becomes a record with
`error_category` set to `api_call_failure`; otherwise the (possibly empty)
completion text is extracted into a normal record with no error category.
Every environment yields a record: nothing propagates to the caller. -/
def process_one_completion (extract : String → String) (pid : String) (i : Nat)
    (env : GenTaskEnv) : GenFullRecord :=
  match env.bodyFault with
  | some msg => ⟨pid, i, some ("api_call_failure"), some msg, (""), ("")⟩
  | none =>
    let raw := create_completion env.api
    ⟨pid, i, none, none, extract raw, raw⟩

/-- Dispatch of a whole generation batch over per-task environments: each
task is processed independently and in full
(`codegenerate_parallel-Codecontest-2.py`, lines 252-261). -/
def runGenJobs (extract : String → String)
    (envOf : String × Nat → GenTaskEnv) (jobs : List (String × Nat)) :
    List GenFullRecord :=
  jobs.map (fun k => process_one_completion extract k.1 k.2 (envOf k))

/-- C8 counterexample: a failing API call does not produce an API-failure
record.  The exception is swallowed inside `create_completion`, which
returns the empty string, so `process_one_completion` builds a normal
record whose `error_category` is absent, not `api_call_failure`. -/
theorem api_fault_yields_untagged_record :
    (process_one_completion id ("p") 0
        ⟨ApiBehavior.raises ("connection refused"), none⟩).error_category
      ≠ some ("api_call_failure") ∧
    (process_one_completion id ("p") 0
        ⟨ApiBehavior.raises ("connection refused"), none⟩).error_category
      = none ∧
    (process_one_completion id ("p") 0
        ⟨ApiBehavior.raises ("connection refused"), none⟩).raw_llm_output
      = ("") := by
  refine ⟨by decide, rfl, rfl⟩

/-- C8 (amended): a fault raised inside the per-task try block is converted
into a record tagged `api_call_failure` carrying the message, and is never
propagated; a failing API call specifically is caught inside
`create_completion` and yields an empty completion text, so the task
produces a normal, untagged record; and in every case each task of a batch
yields exactly one record, independently of its siblings. -/
theorem per_task_fault_policy (extract : String → String) (pid : String)
    (i : Nat) (env : GenTaskEnv) :
    (∀ m, env.bodyFault = some m →
      (process_one_completion extract pid i env).error_category
          = some ("api_call_failure") ∧
      (process_one_completion extract pid i env).error_message = some m) ∧
    (∀ msg, env.api = ApiBehavior.raises msg → env.bodyFault = none →
      (process_one_completion extract pid i env).error_category = none ∧
      (process_one_completion extract pid i env).raw_llm_output = ("") ∧
      (process_one_completion extract pid i env).generated_solution
        = extract ("")) ∧
    (∀ (envOf : String × Nat → GenTaskEnv) (jobs : List (String × Nat)),
      (runGenJobs extract envOf jobs).length = jobs.length ∧
      ∀ k ∈ jobs, process_one_completion extract k.1 k.2 (envOf k)
        ∈ runGenJobs extract envOf jobs) := by
  obtain ⟨api, fault⟩ := env
  refine ⟨?_, ?_, ?_⟩
  · intro m hm
    cases hm
    exact ⟨rfl, rfl⟩
  · intro msg hmsg hfault
    cases hfault
    cases hmsg
    exact ⟨rfl, rfl, rfl⟩
  · intro envOf jobs
    refine ⟨List.length_map jobs _, fun k hk => List.mem_map_of_mem _ hk⟩

/-- Witness for `per_task_fault_policy`: a body fault is tagged, an API
fault is not. -/
theorem per_task_fault_policy_witness :
    ((process_one_completion id ("p") 0
        ⟨ApiBehavior.ok ("x"), some ("boom")⟩).error_category
      = some ("api_call_failure") ∧
     (process_one_completion id ("p") 0
        ⟨ApiBehavior.ok ("x"), some ("boom")⟩).error_message
      = some ("boom")) ∧
    ((process_one_completion id ("q") 1
        ⟨ApiBehavior.raises ("timeout"), none⟩).error_category = none ∧
     (process_one_completion id ("q") 1
        ⟨ApiBehavior.raises ("timeout"), none⟩).raw_llm_output = ("") ∧
     (process_one_completion id ("q") 1
        ⟨ApiBehavior.raises ("timeout"), none⟩).generated_solution
      = id ("")) :=
  ⟨(per_task_fault_policy id ("p") 0 ⟨ApiBehavior.ok ("x"), some ("boom")⟩).1
      ("boom") rfl,
   (per_task_fault_policy id ("q") 1
      ⟨ApiBehavior.raises ("timeout"), none⟩).2.1 ("timeout") rfl rfl⟩

/-- One raw line of a newline-delimited input file, after the attempt to
parse it: blank (skipped by both loaders), a well-formed record, or a
malformed line with the decoder's error text. -/
inductive RawLine (A : Type) where
  | blank
  | ok (item : A)
  | malformed (err : String)

/-- Shallow embedding of `load_jsonl` (`unit_test.py`, lines 10-21): blank
lines are skipped, well-formed records are collected in order, and each
malformed line contributes a printed warning (second component) and is
skipped. -/
def load_jsonl {A : Type} : List (RawLine A) → List A × List String
  | [] => ([], [])
  | RawLine.blank :: rest => load_jsonl rest
  | RawLine.ok x :: rest =>
    let r := load_jsonl rest
    (x :: r.1, r.2)
  | RawLine.malformed e :: rest =>
    let r := load_jsonl rest
    (r.1, e :: r.2)

/-- The fields of one dataset record that `load_dataset` inspects. -/
structure ProblemG where
  problem_id : Option String
deriving DecidableEq

/-- Shallow embedding of `load_dataset`
(`codegenerate_parallel-Codecontest-2.py`, lines 16-42): blank lines are
skipped; a malformed line raises `json.JSONDecodeError`, which no handler
catches, modelled as `Except.error`; a record without a `problem_id` (or
with an empty one) raises `ValueError`; records with an already seen
`problem_id` are skipped; the rest are collected in order. -/
def load_dataset : List (RawLine ProblemG) → List String →
    Except String (List ProblemG)
  | [], _ => Except.ok []
  | RawLine.blank :: rest, seen => load_dataset rest seen
  | RawLine.malformed e :: _, _ => Except.error e
  | RawLine.ok p :: rest, seen =>
    match p.problem_id with
    | none => Except.error ("Missing problem_id")
    | some pid =>
      if pid = ("") then Except.error ("Missing problem_id")
      else if pid ∈ seen then load_dataset rest seen
      else (load_dataset rest (pid :: seen)).map (fun ps => p :: ps)

/-- C9 counterexample: the generation-side loader is fatal on a malformed
line.  With one well-formed record on each side of a malformed line,
loading aborts with the decode error instead of returning the two
well-formed records as the claim requires. -/
theorem load_dataset_fatal_on_malformed :
    load_dataset
      [RawLine.ok ⟨some ("a")⟩, RawLine.malformed ("Expecting value"),
       RawLine.ok ⟨some ("b")⟩] []
      = Except.error ("Expecting value") ∧
    load_dataset
      [RawLine.ok ⟨some ("a")⟩, RawLine.malformed ("Expecting value"),
       RawLine.ok ⟨some ("b")⟩] []
      ≠ Except.ok [⟨some ("a")⟩, ⟨some ("b")⟩] := by
  refine ⟨rfl, fun h => ?_⟩
  have h2 : (Except.error ("Expecting value") : Except String (List ProblemG))
      = Except.ok [⟨some ("a")⟩, ⟨some ("b")⟩] := h
  exact Except.noConfusion h2

/-- A line the generation loader passes without raising: blank, or a record
with a non-empty problem id. -/
def benignLine : RawLine ProblemG → Prop
  | RawLine.blank => True
  | RawLine.ok p => ∃ pid, p.problem_id = some pid ∧ pid ≠ ("")
  | RawLine.malformed _ => False

/-- The generation loader aborts at the first malformed line of the file
whenever the lines before it are benign. -/
theorem load_dataset_error_at_malformed (e : String)
    (post : List (RawLine ProblemG)) :
    ∀ (pre : List (RawLine ProblemG)) (seen : List String),
      (∀ l ∈ pre, benignLine l) →
      load_dataset (pre ++ RawLine.malformed e :: post) seen
        = Except.error e := by
  intro pre
  induction pre with
  | nil => intro seen _; rfl
  | cons l rest ih =>
    intro seen hb
    have hl := hb l (List.mem_cons_self l rest)
    have hrest : ∀ x ∈ rest, benignLine x :=
      fun x hx => hb x (List.mem_cons_of_mem l hx)
    cases l with
    | blank => simpa [load_dataset] using ih seen hrest
    | malformed err => exact absurd hl (by simp [benignLine])
    | ok p =>
      obtain ⟨pid, hpid, hne⟩ := hl
      by_cases hseen : pid ∈ seen
      · simpa [load_dataset, hpid, hne, hseen] using ih seen hrest
      · simp [load_dataset, hpid, hne, hseen, ih (pid :: seen) hrest, Except.map]

/-- C9 (amended): the verification-side loader `load_jsonl` reports and skips
malformed lines — it returns exactly the well-formed records in order, with
one warning per malformed line, regardless of how many lines are malformed
— while the generation-side loader `load_dataset` is not fault-tolerant: it
aborts with an error at the first malformed line. -/
theorem malformed_line_handling {A : Type} (ls : List (RawLine A))
    (e : String) (pre post : List (RawLine ProblemG)) (seen : List String)
    (hpre : ∀ l ∈ pre, benignLine l) :
    (load_jsonl ls).1
      = ls.filterMap (fun l => match l with
        | RawLine.ok x => some x
        | _ => none) ∧
    (load_jsonl ls).2
      = ls.filterMap (fun l => match l with
        | RawLine.malformed err => some err
        | _ => none) ∧
    load_dataset (pre ++ RawLine.malformed e :: post) seen
      = Except.error e := by
  refine ⟨?_, ?_, load_dataset_error_at_malformed e post pre seen hpre⟩
  · induction ls with
    | nil => rfl
    | cons l rest ih =>
      cases l with
      | blank => simpa [load_jsonl] using ih
      | ok x => simp [load_jsonl, ih]
      | malformed err => simpa [load_jsonl] using ih
  · induction ls with
    | nil => rfl
    | cons l rest ih =>
      cases l with
      | blank => simpa [load_jsonl] using ih
      | ok x => simpa [load_jsonl] using ih
      | malformed err => simp [load_jsonl, ih]

/-- Witness for `malformed_line_handling` at a concrete three-line file for
each loader. -/
theorem malformed_line_handling_witness :
    (load_jsonl [RawLine.ok 1, RawLine.malformed ("bad"), RawLine.ok 2]).1
      = [RawLine.ok 1, RawLine.malformed ("bad"),
         RawLine.ok 2].filterMap (fun l => match l with
        | RawLine.ok x => some x
        | _ => none) ∧
    (load_jsonl [RawLine.ok 1, RawLine.malformed ("bad"), RawLine.ok 2]).2
      = [RawLine.ok 1, RawLine.malformed ("bad"),
         RawLine.ok 2].filterMap (fun l => match l with
        | RawLine.malformed err => some err
        | _ => none) ∧
    load_dataset ([RawLine.ok ⟨some ("a")⟩]
        ++ RawLine.malformed ("Expecting value") :: [RawLine.ok ⟨some ("b")⟩]) []
      = Except.error ("Expecting value") :=
  malformed_line_handling [RawLine.ok 1, RawLine.malformed ("bad"), RawLine.ok 2]
    ("Expecting value") [RawLine.ok ⟨some ("a")⟩] [RawLine.ok ⟨some ("b")⟩] []
    (by intro l hl
        simp at hl
        subst hl
        exact ⟨("a"), rfl, by decide⟩)

/-- Decimal digit character for a digit value. -/
def digitChar (d : Nat) : Char := Char.ofNat (48 + d)

/-- Numeric value of a digit character. -/
def digitVal (c : Char) : Nat := c.toNat - 48

/-- Decimal-digit test on characters. -/
def isDigitCh (c : Char) : Bool :=
  decide (48 ≤ c.toNat) && decide (c.toNat ≤ 57)

/-- Most-significant-first decimal digits of a number, prepended to `acc`;
the first argument is recursion fuel, sufficient whenever it exceeds the
number. -/
def natDigitsGo : Nat → Nat → List Char → List Char
  | 0, _, acc => acc
  | fuel + 1, n, acc =>
    if n = 0 then acc
    else natDigitsGo fuel (n / 10) (digitChar (n % 10) :: acc)

/-- Number of digits `natDigitsGo` emits for the same fuel. -/
def digitCountGo : Nat → Nat → Nat
  | 0, _ => 0
  | fuel + 1, n => if n = 0 then 0 else digitCountGo fuel (n / 10) + 1

/-- Decimal representation of a number, as `json.dumps` serializes the
`completion_index` field. -/
def natRepr (n : Nat) : List Char :=
  if n = 0 then ['0'] else natDigitsGo (n + 1) n []

/-- Value of a digit string read most-significant-first, starting from `a`. -/
def valFrom (a : Nat) (ds : List Char) : Nat :=
  ds.foldl (fun x c => 10 * x + digitVal c) a

/-- Digit characters decode to their digit value. -/
theorem digitVal_digitChar (d : Nat) (h : d < 10) :
    digitVal (digitChar d) = d := by
  interval_cases d <;> rfl

/-- Digit characters satisfy the digit test. -/
theorem isDigitCh_digitChar (d : Nat) (h : d < 10) :
    isDigitCh (digitChar d) = true := by
  interval_cases d <;> rfl

/-- Every property of digit characters holds for every character that
`natDigitsGo` emits. -/
theorem natDigitsGo_chars (P : Char → Prop)
    (hP : ∀ d, d < 10 → P (digitChar d)) :
    ∀ (fuel n : Nat) (acc : List Char), (∀ c ∈ acc, P c) →
      ∀ c ∈ natDigitsGo fuel n acc, P c := by
  intro fuel
  induction fuel with
  | zero => intro n acc hacc c hc; exact hacc c hc
  | succ fuel ih =>
    intro n acc hacc c hc
    by_cases h0 : n = 0
    · rw [natDigitsGo, if_pos h0] at hc
      exact hacc c hc
    · rw [natDigitsGo, if_neg h0] at hc
      refine ih (n / 10) (digitChar (n % 10) :: acc) ?_ c hc
      intro x hx
      rcases List.mem_cons.1 hx with h | h
      · subst h
        exact hP _ (Nat.mod_lt n (by omega))
      · exact hacc x h

/-- `natDigitsGo` never shortens its accumulator. -/
theorem natDigitsGo_length (fuel : Nat) :
    ∀ (n : Nat) (acc : List Char),
      acc.length ≤ (natDigitsGo fuel n acc).length := by
  induction fuel with
  | zero => intro n acc; exact Nat.le_refl _
  | succ fuel ih =>
    intro n acc
    by_cases h0 : n = 0
    · rw [natDigitsGo, if_pos h0]
    · rw [natDigitsGo, if_neg h0]
      exact Nat.le_trans (by simp) (ih (n / 10) (digitChar (n % 10) :: acc))

/-- Reading the emitted digits back accumulates the encoded number, for any
sufficient fuel. -/
theorem valFrom_natDigitsGo (fuel : Nat) :
    ∀ (n : Nat), n < fuel → ∀ (acc : List Char) (a : Nat),
      valFrom a (natDigitsGo fuel n acc)
        = valFrom (a * 10 ^ digitCountGo fuel n + n) acc := by
  induction fuel with
  | zero => intro n hn; omega
  | succ fuel ih =>
    intro n hn acc a
    by_cases h0 : n = 0
    · subst h0
      rw [natDigitsGo, if_pos rfl, digitCountGo, if_pos rfl]
      simp
    · rw [natDigitsGo, if_neg h0, digitCountGo, if_neg h0]
      have hlt : n / 10 < fuel := by omega
      rw [ih (n / 10) hlt]
      show valFrom (10 * (a * 10 ^ digitCountGo fuel (n / 10) + n / 10)
        + digitVal (digitChar (n % 10))) acc = _
      rw [digitVal_digitChar _ (Nat.mod_lt n (by omega)), pow_succ]
      congr 1
      rw [← mul_assoc]
      generalize a * 10 ^ digitCountGo fuel (n / 10) = b
      omega

/-- Round trip for decimal representation. -/
theorem valFrom_natRepr (n : Nat) : valFrom 0 (natRepr n) = n := by
  by_cases h0 : n = 0
  · subst h0; rfl
  · rw [natRepr, if_neg h0, valFrom_natDigitsGo (n + 1) n (Nat.lt_succ_self n)]
    simp [valFrom]

/-- All characters of a decimal representation are digits. -/
theorem natRepr_digits (n : Nat) : ∀ c ∈ natRepr n, isDigitCh c = true := by
  by_cases h0 : n = 0
  · subst h0
    intro c hc
    have h : natRepr 0 = ['0'] := rfl
    rw [h] at hc
    simp at hc
    subst hc
    rfl
  · rw [natRepr, if_neg h0]
    exact natDigitsGo_chars (fun c => isDigitCh c = true)
      isDigitCh_digitChar (n + 1) n [] (by intro c hc; simp at hc)

/-- A decimal representation is never empty. -/
theorem natRepr_ne_nil (n : Nat) : natRepr n ≠ [] := by
  by_cases h0 : n = 0
  · subst h0; decide
  · rw [natRepr, if_neg h0]
    intro hnil
    rw [natDigitsGo, if_neg h0] at hnil
    have := natDigitsGo_length n (n / 10) (digitChar (n % 10) :: [])
    rw [hnil] at this
    simp at this


/-- Inverse of `escChar` on the character following a backslash. -/
def unescChar (c : Char) : Option Char :=
  if c = '\\' then some '\\'
  else if c = '"' then some '"'
  else if c = 'n' then some '\n'
  else if c = 'r' then some '\r'
  else if c = 't' then some '\t'
  else none

/-- Scanner for a JSON string body: consumes characters up to the first
unescaped closing quote, undoing the escapes, and returns the decoded
content together with the remainder after the quote.  The boolean state
records whether the previous character was an unconsumed backslash. -/
def parseJStr : Bool → List Char → Option (List Char × List Char)
  | _, [] => none
  | false, c :: rest =>
    if c = '"' then some ([], rest)
    else if c = '\\' then parseJStr true rest
    else (parseJStr false rest).map (fun sr => (c :: sr.1, sr.2))
  | true, c :: rest =>
    match unescChar c with
    | some d => (parseJStr false rest).map (fun sr => (d :: sr.1, sr.2))
    | none => none

/-- Literal matcher: returns the remainder of the second list after the
first, when the first is an initial segment of it. -/
def chopLit : List Char → List Char → Option (List Char)
  | [], s => some s
  | _ :: _, [] => none
  | l :: lit, c :: s => if c = l then chopLit lit s else none

/-- Chopping a literal off itself followed by anything returns the rest. -/
theorem chopLit_append (lit rest : List Char) :
    chopLit lit (lit ++ rest) = some rest := by
  induction lit with
  | nil => rfl
  | cons c cs ih => simp [chopLit, ih]

/-- Scanning one escaped character undoes the escape. -/
theorem parseJStr_cons_escChar (c : Char) (tail : List Char) :
    parseJStr false (escChar c ++ tail)
      = (parseJStr false tail).map (fun sr => (c :: sr.1, sr.2)) := by
  by_cases h1 : c = '\\'
  · subst h1; simp [escChar, parseJStr, unescChar]
  · by_cases h2 : c = '"'
    · subst h2; simp [escChar, parseJStr, unescChar, h1]
    · by_cases h3 : c = '\n'
      · subst h3; simp [escChar, parseJStr, unescChar]
      · by_cases h4 : c = '\r'
        · subst h4; simp [escChar, parseJStr, unescChar]
        · by_cases h5 : c = '\t'
          · subst h5; simp [escChar, parseJStr, unescChar]
          · simp [escChar, parseJStr, h1, h2, h3, h4, h5]

/-- Scanning an escaped text followed by a closing quote recovers the text
and the remainder: the scanner never stops early inside escaped content. -/
theorem parseJStr_escape (s : List Char) (rest : List Char) :
    parseJStr false (escape s ++ '"' :: rest) = some (s, rest) := by
  induction s with
  | nil => simp [escape, parseJStr]
  | cons c cs ih =>
    have hsplit : escape (c :: cs) = escChar c ++ escape cs := by
      simp [escape]
    rw [hsplit, List.append_assoc, parseJStr_cons_escChar, ih]
    rfl

/-- Opening literal of a serialized record. -/
def lit1 : List Char := ("\x7b\"problem_id\": \"").data

/-- Middle literal between the problem id and the completion index. -/
def lit2 : List Char := (", \"completion_index\": ").data

/-- Middle literal between the completion index and the payload. -/
def lit3 : List Char := (", \"payload\": \"").data

/-- Serialization of one record as `json.dumps(info, ensure_ascii=False)`
produces it for this record shape
(`codegenerate_parallel-Codecontest-2.py`, line 250): one JSON object on a
single line, string fields escaped, the numeric field in decimal. -/
def encodeRecord (r : GenRecord) : List Char :=
  lit1 ++ (escape r.problem_id.data ++ '"' ::
    (lit2 ++ (natRepr r.completion_index ++
      (lit3 ++ (escape r.payload.data ++ '"' :: ['}'])))))

/-- The record parser: the inverse scan of `encodeRecord`, used to round-trip
every output line. -/
def decodeRecord (line : List Char) : Option GenRecord :=
  (chopLit lit1 line).bind (fun r1 =>
    (parseJStr false r1).bind (fun sr =>
      (chopLit lit2 sr.2).bind (fun r3 =>
        if r3.takeWhile isDigitCh = [] then none
        else
          (chopLit lit3 (r3.dropWhile isDigitCh)).bind (fun r5 =>
            (parseJStr false r5).bind (fun sr2 =>
              if sr2.2 = ['}'] then
                some ⟨String.mk sr.1, valFrom 0 (r3.takeWhile isDigitCh),
                  String.mk sr2.1⟩
              else none)))))

/-- A digit run followed by text opening with a non-digit splits exactly at
the boundary. -/
theorem span_digits (ds rest : List Char)
    (hds : ∀ c ∈ ds, isDigitCh c = true)
    (hrest : ∀ h : rest ≠ [], isDigitCh (rest.head h) = false) :
    (ds ++ rest).takeWhile isDigitCh = ds ∧
    (ds ++ rest).dropWhile isDigitCh = rest := by
  induction ds with
  | nil =>
    cases rest with
    | nil => exact ⟨rfl, rfl⟩
    | cons c tl =>
      have h := hrest (by simp)
      rw [List.head_cons] at h
      constructor
      · simp [List.takeWhile_cons, h]
      · simp [List.dropWhile_cons, h]
  | cons c cs ih =>
    have hc := hds c (List.mem_cons_self c cs)
    have hcs := ih (fun x hx => hds x (List.mem_cons_of_mem c hx))
    constructor
    · simp [List.takeWhile_cons, hc, hcs.1]
    · simp [List.dropWhile_cons, hc, hcs.2]

/-- Round trip: parsing a serialized record recovers the record. -/
theorem decode_encode (r : GenRecord) : decodeRecord (encodeRecord r) = some r := by
  obtain ⟨pid, idx, pl⟩ := r
  have hspan := span_digits (natRepr idx)
    (lit3 ++ (escape pl.data ++ '"' :: ['}']))
    (natRepr_digits idx) (fun _ => rfl)
  simp only [decodeRecord, encodeRecord, chopLit_append, Option.some_bind,
    parseJStr_escape, hspan.1, hspan.2]
  rw [if_neg (natRepr_ne_nil idx)]
  simp [valFrom_natRepr]

example : decodeRecord (encodeRecord ⟨("a\"b"), 12, ("x\ny")⟩)
    = some ⟨("a\"b"), 12, ("x\ny")⟩ := by decide

/-- Escaped text never contains a raw newline: the newline is rewritten to a
backslash-n pair, and every other emitted character is a backslash, a
quote, an escape letter, or a character that was not a newline. -/
theorem escape_no_newline (s : List Char) : '\n' ∉ escape s := by
  intro h
  rw [escape, List.mem_flatMap] at h
  obtain ⟨c, _, hmem⟩ := h
  revert hmem
  unfold escChar
  split_ifs with h1 h2 h3 h4 h5 <;> simp
  intro hEq
  exact h3 hEq.symm

/-- Digit characters are never newlines. -/
theorem digit_ne_newline (c : Char) (h : isDigitCh c = true) : c ≠ '\n' := by
  intro hEq
  subst hEq
  simp [isDigitCh] at h

/-- A serialized record is a single line: it contains no raw newline. -/
theorem encodeRecord_no_newline (r : GenRecord) : '\n' ∉ encodeRecord r := by
  have h3 : ∀ c ∈ natRepr r.completion_index, c ≠ '\n' :=
    fun c hc => digit_ne_newline c (natRepr_digits _ c hc)
  have hq : ('\n' : Char) ≠ '"' := by decide
  intro h
  rw [encodeRecord] at h
  rcases List.mem_append.1 h with h | h
  · exact (by decide : '\n' ∉ lit1) h
  rcases List.mem_append.1 h with h | h
  · exact escape_no_newline _ h
  rcases List.mem_cons.1 h with h | h
  · exact hq h
  rcases List.mem_append.1 h with h | h
  · exact (by decide : '\n' ∉ lit2) h
  rcases List.mem_append.1 h with h | h
  · exact h3 _ h rfl
  rcases List.mem_append.1 h with h | h
  · exact (by decide : '\n' ∉ lit3) h
  rcases List.mem_append.1 h with h | h
  · exact escape_no_newline _ h
  rcases List.mem_cons.1 h with h | h
  · exact hq h
  simp at h

/-- Splitting text that opens with a newline-free line recovers that line. -/
theorem splitNl_line (xs rest : List Char) (h : '\n' ∉ xs) :
    splitNl (xs ++ '\n' :: rest) = xs :: splitNl rest := by
  induction xs with
  | nil => simp [splitNl]
  | cons c cs ih =>
    have hc : c ≠ '\n' := fun hEq => h (hEq ▸ List.mem_cons_self c cs)
    have hcs : '\n' ∉ cs := fun hm => h (List.mem_cons_of_mem c hm)
    simp [splitNl, hc, ih hcs]

/-- The Result Sink content after all appends complete, in completion order:
each append holds the lock for a single write of one serialized record
followed by one newline (`codegenerate_parallel-Codecontest-2.py`, lines
125 and 248-250), so the file is the concatenation of whole lines in some
completion order of the dispatched tasks. -/
def sinkContent (order : List GenRecord) : List Char :=
  (order.map (fun r => encodeRecord r ++ ['\n'])).flatten

/-- Splitting the sink content on newlines yields exactly the serialized
records in completion order, plus the empty fragment after the final
newline. -/
theorem splitNl_sinkContent (order : List GenRecord) :
    splitNl (sinkContent order) = order.map encodeRecord ++ [[]] := by
  induction order with
  | nil => simp [sinkContent, splitNl]
  | cons r rest ih =>
    have hstep : sinkContent (r :: rest)
        = encodeRecord r ++ '\n' :: sinkContent rest := by
      simp [sinkContent]
    rw [hstep, splitNl_line _ _ (encodeRecord_no_newline r), ih]
    rfl

/-- Round-tripping the serialized lines recovers the records. -/
theorem filterMap_decode_encode (l : List GenRecord) :
    (l.map encodeRecord).filterMap decodeRecord = l := by
  induction l with
  | nil => rfl
  | cons r rest ih =>
    rw [List.map_cons, List.filterMap_cons, decode_encode]
    rw [ih]

/-- C7: with every append performed as one lock-guarded write of a single
newline-terminated serialized record, the sink content for any completion
order of the dispatched tasks splits into exactly one line per task (plus
the empty tail after the final newline), every line parses back through the
record parser, and the parsed lines are exactly the dispatched tasks — no
interleaved or truncated lines. -/
theorem sink_one_line_per_task (jobs order : List GenRecord)
    (hperm : order.Perm jobs) :
    splitNl (sinkContent order) = order.map encodeRecord ++ [[]] ∧
    (splitNl (sinkContent order)).dropLast.length = jobs.length ∧
    (∀ line ∈ (splitNl (sinkContent order)).dropLast,
      decodeRecord line ≠ none) ∧
    ((splitNl (sinkContent order)).dropLast.filterMap decodeRecord).Perm
      jobs := by
  have hsplit := splitNl_sinkContent order
  have hdrop : (splitNl (sinkContent order)).dropLast
      = order.map encodeRecord := by
    rw [hsplit]
    exact List.dropLast_concat
  refine ⟨hsplit, ?_, ?_, ?_⟩
  · rw [hdrop, List.length_map]
    exact hperm.length_eq
  · intro line hl
    rw [hdrop] at hl
    obtain ⟨r, _, rfl⟩ := List.mem_map.1 hl
    rw [decode_encode]
    exact Option.noConfusion
  · rw [hdrop, filterMap_decode_encode]
    exact hperm

/-- Witness for `sink_one_line_per_task`: two records appended in the
reverse of their dispatch order. -/
theorem sink_one_line_per_task_witness :
    splitNl (sinkContent ([⟨("b"), 1, ("y")⟩, ⟨("a"), 0, ("x")⟩] : List GenRecord))
      = ([⟨("b"), 1, ("y")⟩, ⟨("a"), 0, ("x")⟩] : List GenRecord).map
          encodeRecord ++ [[]] ∧
    (splitNl (sinkContent ([⟨("b"), 1, ("y")⟩, ⟨("a"), 0, ("x")⟩] :
        List GenRecord))).dropLast.length
      = ([⟨("a"), 0, ("x")⟩, ⟨("b"), 1, ("y")⟩] : List GenRecord).length ∧
    (∀ line ∈ (splitNl (sinkContent ([⟨("b"), 1, ("y")⟩, ⟨("a"), 0, ("x")⟩] :
        List GenRecord))).dropLast,
      decodeRecord line ≠ none) ∧
    ((splitNl (sinkContent ([⟨("b"), 1, ("y")⟩, ⟨("a"), 0, ("x")⟩] :
        List GenRecord))).dropLast.filterMap decodeRecord).Perm
      ([⟨("a"), 0, ("x")⟩, ⟨("b"), 1, ("y")⟩] : List GenRecord) :=
  sink_one_line_per_task
    ([⟨("a"), 0, ("x")⟩, ⟨("b"), 1, ("y")⟩] : List GenRecord)
    ([⟨("b"), 1, ("y")⟩, ⟨("a"), 0, ("x")⟩] : List GenRecord) (by decide)
